import Mathlib

/-!
Verification of the whelm terminal HTTP client (`main.go`) against its
natural-language specification.

The development shallowly embeds the Go program: the pure helpers
(`parseHeaders`, `indexOf`, the header construction of `sendRequest`,
the file loop of `loadSavedRequests`) become Lean functions, and the
Bubble Tea `model.Update` event handler becomes an explicit transition
function `update : Model → Msg → Model × List Cmd`.  Go maps
(`map[string]string`, `http.Header`) are modelled as association lists
with Go-map insert/overwrite semantics.  The terminal-rendering widgets
(textinput, textarea, list, viewport, spinner) are modelled by the small
fragment of their behaviour the program relies on: a value string plus a
focused flag for text fields, a cursor index for lists; a focused text
field appends the textual representation of a typed key to its value and
an unfocused one ignores input, and no widget ever changes its own
focused flag in response to a key.
-/

/-- Go-map insertion on an association list: overwrite the value if the
key is present (keeping its position), append otherwise.  Models
`m[k] = v` for a `map[string]string`. -/
def mapInsert : List (String × String) → String → String → List (String × String)
  | [], k, v => [(k, v)]
  | e :: t, k, v => if e.1 = k then (k, v) :: t else e :: mapInsert t k v

/-- Whitespace predicate of Go's `unicode.IsSpace` restricted to the
ASCII range (space, tab, newline, vertical tab, form feed, carriage
return), which is what `strings.TrimSpace` strips on the inputs this
program handles. -/
def goIsSpace (c : Char) : Bool :=
  c == ' ' || c == Char.ofNat 9 || c == Char.ofNat 10 ||
  c == Char.ofNat 11 || c == Char.ofNat 12 || c == Char.ofNat 13

/-- `strings.TrimSpace`: drop leading and trailing whitespace. -/
def trimSpace (s : String) : String :=
  String.mk (((s.toList.dropWhile goIsSpace).reverse.dropWhile goIsSpace).reverse)

/-- `strings.SplitN(line, ":", 2)`: split at the first colon only.
Returns `none` when the line has no colon (the `len(parts) == 2` check
in `parseHeaders` fails), otherwise the text before and after the first
colon. -/
def splitFirstColon (s : String) : Option (String × String) :=
  match s.toList.dropWhile (fun c => c != ':') with
  | ':' :: rest => some (String.mk (s.toList.takeWhile (fun c => c != ':')), String.mk rest)
  | _ => none

/-- Accumulating loop of `strings.Split(input, "\\n")`: cut the rune
stream at every newline. -/
def splitLinesAux : List Char → List Char → List String
  | [], acc => [String.mk acc.reverse]
  | c :: rest, acc =>
    if c = Char.ofNat 10 then String.mk acc.reverse :: splitLinesAux rest []
    else splitLinesAux rest (c :: acc)

/-- `strings.Split(input, "\\n")` (an empty input yields one empty
line, as in Go). -/
def splitLines (s : String) : List String :=
  splitLinesAux s.toList []

/-- The loop body of `parseHeaders` (`main.go:656-668`): one iteration
per line, with the accumulated Go map threaded through. -/
def parseHeadersLoop (headers : List (String × String)) : List String → List (String × String)
  | [] => headers
  | line :: rest =>
    let l := trimSpace line
    if l = "" then parseHeadersLoop headers rest
    else
      match splitFirstColon l with
      | some kv => parseHeadersLoop (mapInsert headers (trimSpace kv.1) (trimSpace kv.2)) rest
      | none => parseHeadersLoop headers rest

/-- `parseHeaders` (`main.go:652-671`): split the raw header text on
newlines and run the line loop starting from the empty map. -/
def parseHeaders (input : String) : List (String × String) :=
  parseHeadersLoop [] (splitLines input)

/-- Restatement of the spec's wording of the header-parsing algorithm
(spec §4.3), assembled as a pipeline to be compared with the source
translation `parseHeaders`: split on line boundaries; trim each line;
skip blank lines; split each non-blank line on the first colon only
(lines without a colon are discarded); trim key and value
independently; insert with later duplicates overwriting. -/
def parseHeadersSpec (input : String) : List (String × String) :=
  (((( splitLines input).map trimSpace).filter (fun l => l != "")).filterMap
      (fun l => (splitFirstColon l).map (fun kv => (trimSpace kv.1, trimSpace kv.2)))).foldl
    (fun h kv => mapInsert h kv.1 kv.2) []

/-- `HTTPRequest` (`main.go:55-61`); `Headers` is a Go map modelled as
an association list with unique keys. -/
structure HTTPRequest where
  name : String
  method : String
  url : String
  headers : List (String × String)
  body : String
  deriving Repr, DecidableEq

/-- `HTTPResponse` (`main.go:64-70`). -/
structure HTTPResponse where
  statusCode : Int
  status : String
  headers : List (String × String)
  body : String
  error : String
  deriving Repr, DecidableEq

/-- Valid MIME header token byte (`net/textproto.validHeaderFieldByte`):
letters, digits, and the fifteen token symbols.  Codes 39 and 96 are the
apostrophe and the backquote. -/
def validHeaderFieldChar (c : Char) : Bool :=
  ('A' ≤ c && c ≤ 'Z') || ('a' ≤ c && c ≤ 'z') || ('0' ≤ c && c ≤ '9') ||
  c == '!' || c == '#' || c == '$' || c == '%' || c == '&' || c == Char.ofNat 39 ||
  c == '*' || c == '+' || c == '-' || c == '.' || c == '^' || c == '_' ||
  c == Char.ofNat 96 || c == '|' || c == '~'

/-- Case-mapping loop of `textproto.CanonicalMIMEHeaderKey`: uppercase a
letter at the start or after a hyphen, lowercase it elsewhere. -/
def canonLoop (upper : Bool) : List Char → List Char
  | [] => []
  | c :: rest =>
    let c2 : Char :=
      if upper ∧ 'a' ≤ c ∧ c ≤ 'z' then Char.ofNat (c.toNat - 32)
      else if ¬upper ∧ 'A' ≤ c ∧ c ≤ 'Z' then Char.ofNat (c.toNat + 32)
      else c
    c2 :: canonLoop (c2 == '-') rest

/-- `textproto.CanonicalMIMEHeaderKey`: return the key unchanged if it
holds an invalid header byte, otherwise canonicalize the case
(`Content-Type` style).  The stdlib's `commonHeader` cache is a pure
optimization with identical semantics and is not modelled. -/
def canonicalMIMEHeaderKey (s : String) : String :=
  if s.toList.all validHeaderFieldChar then String.mk (canonLoop true s.toList) else s

/-- `http.Header` / `textproto.MIMEHeader`: map from canonical key to
the list of added values, modelled as an association list. -/
def rawHeaderAdd : List (String × List String) → String → String → List (String × List String)
  | [], ck, v => [(ck, [v])]
  | e :: t, ck, v => if e.1 = ck then (e.1, e.2 ++ [v]) :: t else e :: rawHeaderAdd t ck v

def rawHeaderSet : List (String × List String) → String → String → List (String × List String)
  | [], ck, v => [(ck, [v])]
  | e :: t, ck, v => if e.1 = ck then (e.1, [v]) :: t else e :: rawHeaderSet t ck v

def rawHeaderValues : List (String × List String) → String → List String
  | [], _ => []
  | e :: t, ck => if e.1 = ck then e.2 else rawHeaderValues t ck

/-- `http.Header.Add`: canonicalize the key and append the value. -/
def headerAdd (h : List (String × List String)) (key value : String) : List (String × List String) :=
  rawHeaderAdd h (canonicalMIMEHeaderKey key) value

/-- `http.Header.Set`: canonicalize the key and replace all values. -/
def headerSet (h : List (String × List String)) (key value : String) : List (String × List String) :=
  rawHeaderSet h (canonicalMIMEHeaderKey key) value

/-- `http.Header.Get`: first added value under the canonical key, or the
empty string when the key is absent. -/
def headerGet (h : List (String × List String)) (key : String) : String :=
  match rawHeaderValues h (canonicalMIMEHeaderKey key) with
  | v :: _ => v
  | [] => ""

/-- The `for k, v := range req.Headers { httpReq.Header.Add(k, v) }`
loop of `sendRequest` (`main.go:558-560`), iterating the association
list in order (the Go map iteration order is unspecified; no claim here
depends on it). -/
def headerAddAll (h : List (String × List String)) : List (String × String) → List (String × List String)
  | [] => h
  | kv :: rest => headerAddAll (headerAdd h kv.1 kv.2) rest

/-- Header construction of `sendRequest` (`main.go:557-565`): add every
draft header, then default `Content-Type` to `application/json` when
the body is non-empty and `Get("Content-Type")` returns the empty
string. -/
def buildRequestHeaders (req : HTTPRequest) : List (String × List String) :=
  let h := headerAddAll [] req.headers
  if req.body ≠ "" ∧ headerGet h "Content-Type" = "" then
    headerSet h "Content-Type" "application/json"
  else h

/-- `strings.HasSuffix`. -/
def goHasSuffix (s suffix : String) : Bool :=
  suffix.toList.isSuffixOf s.toList

/-- One entry of the `requests/` directory as `loadSavedRequests` sees
it: the file name, the `IsDir` flag, and the result of `os.ReadFile`
(`none` models a read error, which the loop skips with `continue`). -/
structure DirEntry where
  name : String
  isDir : Bool
  content : Option String
  deriving Repr, DecidableEq

/-- State of the `requests/` directory at the time of the listing:
absent (`os.IsNotExist`), unreadable (`os.ReadDir` error), or a list of
entries. -/
inductive DirState where
  | notExist : DirState
  | readError (e : String) : DirState
  | entries (files : List DirEntry) : DirState
  deriving Repr, DecidableEq

/-- The message `loadSavedRequests` returns to the event loop: the
refreshed saved-request list (`savedRequestsMsg`) or an error
(`errMsg`). -/
inductive LoadResult where
  | savedMsg (reqs : List HTTPRequest) : LoadResult
  | errMsg (e : String) : LoadResult
  deriving Repr, DecidableEq

/-- `loadSavedRequests` (`main.go:619-650`), with the directory state
passed explicitly and `json.Unmarshal` abstracted as the `parse`
parameter (a file whose content fails to parse is skipped with
`continue`).  Only regular files whose names end in `.json` are
considered. -/
def loadSavedRequests (dir : DirState) (parse : String → Option HTTPRequest) : LoadResult :=
  match dir with
  | .notExist => .savedMsg []
  | .readError e => .errMsg e
  | .entries files =>
    .savedMsg (files.foldl (fun requests file =>
      if !file.isDir && goHasSuffix file.name ".json" then
        match file.content with
        | none => requests
        | some data =>
          match parse data with
          | none => requests
          | some req => requests ++ [req]
      else requests) [])

/-- The per-file outcome of the `loadSavedRequests` loop: the parsed
request when the entry is a regular `.json` file that reads and parses,
`none` otherwise. -/
def loadedEntry (parse : String → Option HTTPRequest) (file : DirEntry) : Option HTTPRequest :=
  if !file.isDir && goHasSuffix file.name ".json" then file.content.bind parse else none

/-- UI states (`main.go:23-30`). -/
def stateMain : Nat := 0

def stateEditRequest : Nat := 1

def stateViewResponse : Nat := 2

def stateSaveRequest : Nat := 3

def stateLoadRequest : Nat := 4

/-- `httpMethods` (`main.go:33-41`). -/
def httpMethods : List String :=
  ["GET", "POST", "PUT", "DELETE", "PATCH", "HEAD", "OPTIONS"]

/-- `indexOf` (`main.go:673-680`): first index of `val`, or 0 when it
is not in the slice. -/
def indexOf (val : String) (slice : List String) : Nat :=
  match slice.findIdx? (fun itm => itm == val) with
  | some i => i
  | none => 0

/-- The key events `model.Update` distinguishes, mirroring
`tea.KeyMsg`: the special key types the program tests (`tea.KeyTab`,
`tea.KeyCtrlN`, …) and plain runes with the Alt modifier. -/
inductive Key where
  | tab : Key
  | ctrlN : Key
  | enter : Key
  | esc : Key
  | ctrlS : Key
  | ctrlC : Key
  | up : Key
  | down : Key
  | chr (c : Char) (alt : Bool) : Key
  deriving Repr, DecidableEq

/-- `tea.KeyMsg.String()`: special keys print their name, a rune prints
itself, and a held Alt modifier prefixes `alt+`. -/
def Key.string : Key → String
  | .tab => "tab"
  | .ctrlN => "ctrl+n"
  | .enter => "enter"
  | .esc => "esc"
  | .ctrlS => "ctrl+s"
  | .ctrlC => "ctrl+c"
  | .up => "up"
  | .down => "down"
  | .chr c alt => (if alt then "alt+" else "") ++ String.singleton c

/-- `tea.KeyMsg.Alt`. -/
def Key.altPressed : Key → Bool
  | .chr _ alt => alt
  | _ => false

/-- The navigation-key test of `main.go:192` and `main.go:392`:
`msg.String() == "ctrl+n" || msg.Type == tea.KeyCtrlN ||
msg.String() == "tab" || msg.Type == tea.KeyTab`.  In this key model
the `String()` comparisons are subsumed by the type comparisons. -/
def isNavKey : Key → Bool
  | .tab => true
  | .ctrlN => true
  | _ => false

/-- Messages delivered to `model.Update` (`main.go:100-104` plus
`tea.WindowSizeMsg` and `spinner.TickMsg`). -/
inductive Msg where
  | key (k : Key) : Msg
  | windowSize (width height : Int) : Msg
  | response (r : HTTPResponse) : Msg
  | saved (reqs : List HTTPRequest) : Msg
  | err (e : String) : Msg
  | spinnerTick : Msg
  deriving Repr, DecidableEq

/-- The commands `model.Update` can return (`tea.Cmd` values, with
`tea.Batch` flattened into the returned list). -/
inductive Cmd where
  | quit : Cmd
  | spinnerTick : Cmd
  | blink : Cmd
  | sendReq (r : HTTPRequest) : Cmd
  | saveReq (r : HTTPRequest) : Cmd
  | loadSaved : Cmd
  deriving Repr, DecidableEq

/-- True when the returned command list dispatches an HTTP send. -/
def dispatchesSend (cs : List Cmd) : Bool :=
  cs.any (fun c => match c with | .sendReq _ => true | _ => false)

/-- Model of a bubbles `textinput.Model` / `textarea.Model`: the text
value and the focused flag (`multiline` distinguishes textarea from
textinput). -/
structure TextField where
  value : String
  focused : Bool
  multiline : Bool
  deriving Repr, DecidableEq

/-- Textual representation a focused editor would insert for a key:
a rune prints itself; a textarea inserts a newline for enter and an
indent for tab; everything else inserts nothing. -/
def Key.editText (k : Key) (multiline : Bool) : String :=
  match k with
  | .chr c false => String.singleton c
  | .enter => if multiline then "\n" else ""
  | .tab => if multiline then String.singleton (Char.ofNat 9) else ""
  | _ => ""

/-- Library model of `textinput.Update` / `textarea.Update` on the
fragment this program relies on: a focused field appends the key's
textual representation to its value; an unfocused field and non-key
messages leave the field unchanged; the focused flag is never changed
by `Update` (only by explicit `Focus`/`Blur` calls). -/
def TextField.update (f : TextField) (msg : Msg) : TextField :=
  match msg with
  | .key k => if f.focused then { f with value := f.value ++ k.editText f.multiline } else f
  | _ => f

/-- Model of a bubbles `list.Model`: the cursor index and the item
count. -/
structure ListModel where
  index : Nat
  count : Nat
  deriving Repr, DecidableEq

/-- Library model of `list.Model.Update`: up/down move the cursor,
clamped to the item range; other messages leave it unchanged. -/
def ListModel.update (l : ListModel) (msg : Msg) : ListModel :=
  match msg with
  | .key k =>
    if k.string = "up" ∨ k.string = "k" then { l with index := l.index - 1 }
    else if k.string = "down" ∨ k.string = "j" then
      { l with index := if l.index + 1 < l.count then l.index + 1 else l.index }
    else l
  | _ => l

/-- The application model (`main.go:73-90`).  The spinner carries no
state the claims observe; `responseView` keeps the viewport content set
by `SetContent`.  `err` is the `error` field (`none` is Go's `nil`). -/
structure Model where
  state : Nat
  width : Int
  height : Int
  currentRequest : HTTPRequest
  response : HTTPResponse
  methodList : ListModel
  urlInput : TextField
  bodyInput : TextField
  headerInput : TextField
  nameInput : TextField
  responseView : String
  loading : Bool
  savedRequests : List HTTPRequest
  requestList : ListModel
  err : Option String
  deriving Repr, DecidableEq

/-- `initialModel` (`main.go:107-175`): main state, `GET` draft with
empty URL/headers/body, URL and name inputs focused. -/
def initialModel : Model :=
  { state := stateMain
    width := 0
    height := 0
    currentRequest := { name := "", method := "GET", url := "", headers := [], body := "" }
    response := { statusCode := 0, status := "", headers := [], body := "", error := "" }
    methodList := { index := 0, count := httpMethods.length }
    urlInput := { value := "", focused := true, multiline := false }
    bodyInput := { value := "", focused := false, multiline := true }
    headerInput := { value := "", focused := false, multiline := true }
    nameInput := { value := "", focused := true, multiline := false }
    responseView := ""
    loading := false
    savedRequests := []
    requestList := { index := 0, count := 0 }
    err := none }

/-- `Key: Value` lines of a header map, in association-list order (the
Go map iteration order is unspecified; no claim depends on it). -/
def headerLines (hs : List (String × String)) : String :=
  hs.foldl (fun s kv => s ++ kv.1 ++ ": " ++ kv.2 ++ "\n") ""

/-- The response-view content built in the `responseMsg` case of
`model.Update` (`main.go:322-356`), with the lipgloss styling (excluded
rendering) dropped: request line, request headers if any, request body
if non-empty, response status, response headers if any, response
body. -/
def formatResponse (req : HTTPRequest) (resp : HTTPResponse) : String :=
  let c1 := "Request:\n" ++ req.method ++ " " ++ req.url ++ "\n\n"
  let c2 := if req.headers.length > 0 then c1 ++ "Request Headers:\n" ++ headerLines req.headers ++ "\n" else c1
  let c3 := if req.body ≠ "" then c2 ++ "Request Body:\n" ++ req.body ++ "\n\n" else c2
  let c4 := c3 ++ "Response Status: " ++ toString resp.statusCode ++ " " ++ resp.status ++ "\n\n"
  let c5 := if resp.headers.length > 0 then c4 ++ "Response Headers:\n" ++ headerLines resp.headers ++ "\n" else c4
  c5 ++ "Response Body:\n" ++ resp.body

/-- The component-update section at the bottom of `model.Update`
(`main.go:386-438`): in the edit state, navigation keys are dropped
before any component sees them (`main.go:389-395`), otherwise exactly
the focused component is updated and mirrors its value into the draft
(with the extra tab interception of `main.go:404` and `main.go:413`);
the save state always updates the name input, the view state scrolls
the viewport (content unchanged), the load state updates the request
list. -/
def componentUpdate (m : Model) (msg : Msg) : Model × List Cmd :=
  if m.state = stateEditRequest then
    if (match msg with | .key k => isNavKey k | _ => false) then (m, [])
    else if m.urlInput.focused then
      let f := m.urlInput.update msg
      ({ m with urlInput := f, currentRequest.url := f.value }, [])
    else if m.bodyInput.focused then
      if (match msg with | .key .tab => true | _ => false) then (m, [])
      else
        let f := m.bodyInput.update msg
        ({ m with bodyInput := f, currentRequest.body := f.value }, [])
    else if m.headerInput.focused then
      if (match msg with | .key .tab => true | _ => false) then (m, [])
      else
        let f := m.headerInput.update msg
        ({ m with headerInput := f, currentRequest.headers := parseHeaders f.value }, [])
    else
      ({ m with methodList := m.methodList.update msg }, [])
  else if m.state = stateSaveRequest then
    ({ m with nameInput := m.nameInput.update msg }, [])
  else if m.state = stateViewResponse then
    (m, [])
  else if m.state = stateLoadRequest then
    ({ m with requestList := m.requestList.update msg }, [])
  else (m, [])

/-- The `switch m.state` dispatch on key messages (`main.go:217-302`);
a key no case returns on falls through to `componentUpdate`. -/
def updateKey (m : Model) (k : Key) : Model × List Cmd :=
  if m.state = stateMain then
    if k.string = "q" ∨ k.string = "ctrl+c" ∨ k.string = "esc" then (m, [Cmd.quit])
    else if k.string = "e" ∨ k.string = "n" then
      ({ m with state := stateEditRequest, urlInput.focused := true }, [])
    else if k.string = "l" then ({ m with state := stateLoadRequest }, [])
    else if k.string = "enter" then
      if m.currentRequest.url ≠ "" then
        ({ m with loading := true }, [Cmd.spinnerTick, Cmd.sendReq m.currentRequest])
      else componentUpdate m (.key k)
    else componentUpdate m (.key k)
  else if m.state = stateEditRequest then
    if k.string = "esc" then ({ m with state := stateMain }, [])
    else if k.string = "enter" then
      if !m.urlInput.focused && !m.headerInput.focused && !m.bodyInput.focused then
        ({ m with currentRequest.method := httpMethods.getD m.methodList.index "GET",
                  headerInput.focused := true }, [])
      else componentUpdate m (.key k)
    else if k.string = "s" then
      if k.altPressed then
        ({ m with state := stateSaveRequest, nameInput.focused := true }, [])
      else componentUpdate m (.key k)
    else if k.string = "ctrl+s" then
      ({ m with state := stateMain, loading := true },
       [Cmd.spinnerTick, Cmd.sendReq m.currentRequest])
    else componentUpdate m (.key k)
  else if m.state = stateViewResponse then
    if k.string = "esc" ∨ k.string = "q" then ({ m with state := stateMain }, [])
    else if k.string = "e" then ({ m with state := stateEditRequest }, [])
    else componentUpdate m (.key k)
  else if m.state = stateSaveRequest then
    if k.string = "esc" then ({ m with state := stateEditRequest }, [])
    else if k.string = "enter" then
      if m.nameInput.value ≠ "" then
        ({ m with currentRequest.name := m.nameInput.value, state := stateEditRequest,
                  nameInput.value := "" },
         [Cmd.saveReq { m.currentRequest with name := m.nameInput.value }])
      else componentUpdate m (.key k)
    else componentUpdate m (.key k)
  else if m.state = stateLoadRequest then
    if k.string = "esc" then ({ m with state := stateMain }, [])
    else if k.string = "enter" then
      if m.savedRequests.length > 0 then
        ({ m with currentRequest := m.savedRequests.getD m.requestList.index m.currentRequest,
                  state := stateMain }, [])
      else componentUpdate m (.key k)
    else componentUpdate m (.key k)
  else componentUpdate m (.key k)

/-- `model.Update` (`main.go:185-441`).  A key in the edit state first
hits the dedicated navigation handler (`main.go:192-215`), whose four
branches are exhaustive over the focus flags; other keys go through the
state switch; window sizes store the dimensions (the widget-layout
calls have no behavioural effect) and fall through to the component
section; a response message populates the viewer and enters the view
state; a saved-requests message stores the refreshed list; an error
message stops the spinner and records the error; a spinner tick is
consumed while loading. -/
def update (m : Model) (msg : Msg) : Model × List Cmd :=
  match msg with
  | .key k =>
    if m.state = stateEditRequest ∧ isNavKey k then
      if m.urlInput.focused then
        ({ m with urlInput.focused := false,
                  methodList.index := indexOf m.currentRequest.method httpMethods }, [])
      else if !m.urlInput.focused && !m.headerInput.focused && !m.bodyInput.focused then
        ({ m with currentRequest.method := httpMethods.getD m.methodList.index "GET",
                  headerInput.focused := true }, [Cmd.blink])
      else if m.headerInput.focused then
        ({ m with headerInput.focused := false, bodyInput.focused := true }, [Cmd.blink])
      else if m.bodyInput.focused then
        ({ m with bodyInput.focused := false, urlInput.focused := true }, [Cmd.blink])
      else updateKey m k
    else updateKey m k
  | .windowSize w h => componentUpdate { m with width := w, height := h } msg
  | .response r =>
    ({ m with loading := false, response := r, state := stateViewResponse,
              responseView := formatResponse m.currentRequest r }, [])
  | .saved reqs =>
    ({ m with savedRequests := reqs, requestList.count := reqs.length }, [])
  | .err e => ({ m with loading := false, err := some e }, [])
  | .spinnerTick => if m.loading then (m, [Cmd.spinnerTick]) else componentUpdate m msg

/-- Fold a list of events through `update`, keeping the model. -/
def runEvents (m : Model) (evs : List Msg) : Model :=
  evs.foldl (fun m e => (update m e).1) m

/-- One navigation trigger (a tab key) applied to the model. -/
def navStep (m : Model) : Model :=
  (update m (Msg.key Key.tab)).1

/-- The four logical fields of the edit form (spec §4.1). -/
inductive FocusField where
  | url : FocusField
  | method : FocusField
  | headers : FocusField
  | body : FocusField
  deriving Repr, DecidableEq

/-- Which logical field holds focus: a text field via its focused flag;
the Method selection is represented as no text field focused
(`main.go:199-201`, spec §4.1). -/
def holdsFocus (m : Model) : FocusField → Bool
  | .url => m.urlInput.focused
  | .method => !m.urlInput.focused && !m.headerInput.focused && !m.bodyInput.focused
  | .headers => m.headerInput.focused
  | .body => m.bodyInput.focused

/-- The logical fields currently reporting focus. -/
def focusedFields (m : Model) : List FocusField :=
  [FocusField.url, FocusField.method, FocusField.headers, FocusField.body].filter (holdsFocus m)

/-- The single focused field (meaningful when exactly one field reports
focus). -/
def focusOf (m : Model) : FocusField :=
  if m.urlInput.focused then .url
  else if m.headerInput.focused then .headers
  else if m.bodyInput.focused then .body
  else .method

/-- The model after pressing `e` in the main state: edit mode with the
URL field focused, as the tests construct it. -/
def editModel : Model :=
  (update initialModel (Msg.key (Key.chr 'e' false))).1

/-- Event sequence that leaves Editing with the Headers field focused
and re-enters it: edit, tab (URL to Method), tab (Method to Headers),
escape, edit again. -/
def navReenterEvents : List Msg :=
  [Msg.key (Key.chr 'e' false), Msg.key Key.tab, Msg.key Key.tab,
   Msg.key Key.esc, Msg.key (Key.chr 'e' false)]

/-- Event sequence that types a URL and dispatches a send from the main
state: edit, type `h` into the URL field, escape, enter. -/
def busySendEvents : List Msg :=
  [Msg.key (Key.chr 'e' false), Msg.key (Key.chr 'h' false),
   Msg.key Key.esc, Msg.key Key.enter]

/-- A saved request whose method string is not in the enumerated
method list, as a hand-edited `requests/*.json` file can contain. -/
def unknownMethodRequest : HTTPRequest :=
  { name := "x", method := "FOO", url := "u", headers := [], body := "" }

/-- Deliver the loaded list, load the request, enter edit mode, and
advance once (URL to Method). -/
def unknownMethodEvents : List Msg :=
  [Msg.saved [unknownMethodRequest], Msg.key (Key.chr 'l' false), Msg.key Key.enter,
   Msg.key (Key.chr 'e' false), Msg.key Key.tab]

/-- A successful HTTP response. -/
def sampleResponse : HTTPResponse :=
  { statusCode := 200, status := "200 OK", headers := [("X", "y")], body := "ok", error := "" }

/-- A model with a recorded operational failure and a send in
flight. -/
def erroredModel : Model :=
  { initialModel with err := some "boom", loading := true }

/-- A request with a non-empty body whose headers explicitly supply a
`Content-Type` entry with an empty value (the header line
`Content-Type:` parses to this). -/
def emptyCTRequest : HTTPRequest :=
  { name := "", method := "POST", url := "u", headers := [("Content-Type", "")], body := "x" }

/-- A request with a non-empty body and an explicitly supplied
(non-canonically spelled) `Content-Type`. -/
def plainCTRequest : HTTPRequest :=
  { name := "", method := "POST", url := "u",
    headers := [("content-type", "text/plain")], body := "b" }

/-- A deserializer accepting exactly the content `{}`. -/
def sampleParse : String → Option HTTPRequest :=
  fun s => if s = "ok-content" then
    some { name := "ok", method := "GET", url := "u", headers := [], body := "" }
  else none

/-- A well-formed saved-request file under `sampleParse`. -/
def goodFile : DirEntry :=
  { name := "a.json", isDir := false, content := some "ok-content" }

/-- A `.json` file whose content does not parse. -/
def corruptFile : DirEntry :=
  { name := "b.json", isDir := false, content := some "not json" }

lemma parseHeadersLoop_eq (lines : List String) (acc : List (String × String)) :
    parseHeadersLoop acc lines =
      (((lines.map trimSpace).filter (fun l => l != "")).filterMap
          (fun l => (splitFirstColon l).map (fun kv => (trimSpace kv.1, trimSpace kv.2)))).foldl
        (fun h kv => mapInsert h kv.1 kv.2) acc := by
  induction lines generalizing acc with
  | nil => simp [parseHeadersLoop]
  | cons line rest ih =>
    by_cases hblank : trimSpace line = ""
    · simp [parseHeadersLoop, hblank, ih]
    · rcases hcolon : splitFirstColon (trimSpace line) with _ | kv
      · simp [parseHeadersLoop, hblank, hcolon, ih]
      · simp [parseHeadersLoop, hblank, hcolon, ih]

lemma rawHeaderValues_rawHeaderAdd (h : List (String × List String)) (ck ck2 v : String) :
    rawHeaderValues (rawHeaderAdd h ck v) ck2 =
      if ck = ck2 then rawHeaderValues h ck2 ++ [v] else rawHeaderValues h ck2 := by
  induction h with
  | nil =>
    by_cases hck : ck = ck2
    · subst hck; simp [rawHeaderAdd, rawHeaderValues]
    · simp [rawHeaderAdd, rawHeaderValues, hck, Ne.symm hck]
  | cons e t ih =>
    by_cases hck : ck = ck2
    · subst hck
      by_cases he : e.1 = ck
      · simp [rawHeaderAdd, rawHeaderValues, he]
      · simp [rawHeaderAdd, rawHeaderValues, he, ih]
    · by_cases he : e.1 = ck
      · have he2 : ¬e.1 = ck2 := by rw [he]; exact hck
        simp [rawHeaderAdd, rawHeaderValues, he, he2, hck, ih]
      · by_cases he2 : e.1 = ck2
        · simp [rawHeaderAdd, rawHeaderValues, he, he2, hck, Ne.symm hck, ih]
        · simp [rawHeaderAdd, rawHeaderValues, he, he2, hck, Ne.symm hck, ih]

lemma rawHeaderValues_rawHeaderSet_self (h : List (String × List String)) (ck v : String) :
    rawHeaderValues (rawHeaderSet h ck v) ck = [v] := by
  induction h with
  | nil => simp [rawHeaderSet, rawHeaderValues]
  | cons e t ih =>
    by_cases he : e.1 = ck <;> simp [rawHeaderSet, rawHeaderValues, he, ih]

lemma rawHeaderValues_headerAddAll (l : List (String × String))
    (h : List (String × List String)) (ck : String) :
    rawHeaderValues (headerAddAll h l) ck =
      rawHeaderValues h ck ++
        (l.filter (fun kv => canonicalMIMEHeaderKey kv.1 == ck)).map (fun kv => kv.2) := by
  induction l generalizing h with
  | nil => simp [headerAddAll]
  | cons kv rest ih =>
    by_cases hk : canonicalMIMEHeaderKey kv.1 = ck
    · simp [headerAddAll, ih, headerAdd, rawHeaderValues_rawHeaderAdd, hk]
    · simp [headerAddAll, ih, headerAdd, rawHeaderValues_rawHeaderAdd, hk]

lemma loadSavedRequests_loop_eq (parse : String → Option HTTPRequest)
    (files : List DirEntry) (acc : List HTTPRequest) :
    (files.foldl (fun requests file =>
      if !file.isDir && goHasSuffix file.name ".json" then
        match file.content with
        | none => requests
        | some data =>
          match parse data with
          | none => requests
          | some req => requests ++ [req]
      else requests) acc) = acc ++ files.filterMap (loadedEntry parse) := by
  induction files generalizing acc with
  | nil => simp
  | cons file rest ih =>
    rw [List.foldl_cons, ih]
    by_cases hd : file.isDir
    · simp [loadedEntry, hd]
    · by_cases hj : goHasSuffix file.name ".json"
      · rcases hc : file.content with _ | data
        · simp [loadedEntry, hd, hj, hc]
        · rcases hp : parse data with _ | req
          · simp [loadedEntry, hd, hj, hc, hp]
          · simp [loadedEntry, hd, hj, hc, hp]
      · simp [loadedEntry, hd, hj]

lemma TextField.update_focused (f : TextField) (msg : Msg) :
    (f.update msg).focused = f.focused := by
  cases msg <;> simp [TextField.update]
  split <;> rfl

lemma componentUpdate_frame (m : Model) (msg : Msg) :
    (componentUpdate m msg).1.state = m.state ∧
    (componentUpdate m msg).1.urlInput.focused = m.urlInput.focused ∧
    (componentUpdate m msg).1.headerInput.focused = m.headerInput.focused ∧
    (componentUpdate m msg).1.bodyInput.focused = m.bodyInput.focused := by
  unfold componentUpdate
  split
  · split
    · simp
    · split
      · simp [TextField.update_focused]
      · split
        · split
          · simp
          · simp [TextField.update_focused]
        · split
          · split
            · simp
            · simp [TextField.update_focused]
          · simp
  · split
    · simp [TextField.update_focused]
    · split
      · simp
      · split
        · simp
        · simp

lemma focusedFields_eq_of (m m2 : Model)
    (hu : m2.urlInput.focused = m.urlInput.focused)
    (hh : m2.headerInput.focused = m.headerInput.focused)
    (hb : m2.bodyInput.focused = m.bodyInput.focused) :
    focusedFields m2 = focusedFields m := by
  simp only [focusedFields, List.filter_cons, List.filter_nil]
  simp [holdsFocus, hu, hh, hb]

lemma headerGet_headerAddAll_nil (hs : List (String × String)) :
    headerGet (headerAddAll [] hs) "Content-Type" =
      match (hs.filter (fun kv => canonicalMIMEHeaderKey kv.1 == "Content-Type")).head? with
      | some kv => kv.2
      | none => "" := by
  have hcanon : canonicalMIMEHeaderKey "Content-Type" = "Content-Type" := by decide
  have hvals := rawHeaderValues_headerAddAll hs [] "Content-Type"
  simp only [rawHeaderValues, List.nil_append] at hvals
  rw [headerGet, hcanon, hvals]
  cases hfl : hs.filter (fun kv => canonicalMIMEHeaderKey kv.1 == "Content-Type") with
  | nil => simp
  | cons kv t => simp

lemma focusedFields_componentUpdate (m : Model) (msg : Msg) :
    focusedFields (componentUpdate m msg).1 = focusedFields m := by
  have hf := componentUpdate_frame m msg
  exact focusedFields_eq_of m _ hf.2.1 hf.2.2.1 hf.2.2.2

lemma loadSavedRequests_entries (parse : String → Option HTTPRequest) (files : List DirEntry) :
    loadSavedRequests (DirState.entries files) parse =
      LoadResult.savedMsg (files.filterMap (loadedEntry parse)) := by
  have h := loadSavedRequests_loop_eq parse files []
  simp only [List.nil_append] at h
  exact congrArg LoadResult.savedMsg h

lemma updateKey_edit_cases (m : Model) (k : Key) (h1 : m.state = stateEditRequest) :
    updateKey m k = componentUpdate m (Msg.key k) ∨
    (updateKey m k).1.state ≠ stateEditRequest ∨
    (updateKey m k =
        ({ m with currentRequest.method := httpMethods.getD m.methodList.index "GET",
                  headerInput.focused := true }, []) ∧
      (!m.urlInput.focused && !m.headerInput.focused && !m.bodyInput.focused) = true) := by
  unfold updateKey
  rw [if_neg (show ¬m.state = stateMain by rw [h1]; decide), if_pos h1]
  split_ifs <;>
    first
      | (left; rfl)
      | (right; left; simp [stateMain, stateSaveRequest, stateEditRequest]; done)
      | (right; right; exact ⟨rfl, by assumption⟩)

/-- Claim C1, counterexample: after typing URL `h` and dispatching a
send from the main state (so `loading` is true), another `enter` still
dispatches a second `sendRequest` command — the claim's "no second
dispatch" fails on the code, which checks only the URL, never
`loading` (`main.go:229-236`). -/
theorem c1_busy_send_counterexample :
    (runEvents initialModel busySendEvents).state = stateMain ∧
    (runEvents initialModel busySendEvents).loading = true ∧
    (runEvents initialModel busySendEvents).currentRequest.url = "h" ∧
    dispatchesSend (update (runEvents initialModel busySendEvents) (Msg.key Key.enter)).2 = true ∧
    (update (runEvents initialModel busySendEvents) (Msg.key Key.enter)).1.loading = true := by
  refine ⟨by decide, by decide, by decide, by decide, by decide⟩

/-- Claim C1, amended: in the main state the send trigger is honored
whenever the URL is non-empty, regardless of `busy`; it dispatches a
send (even while one is outstanding), leaves `loading` true, and leaves
the request draft unchanged. -/
theorem c1_send_trigger_amended (m : Model) (h1 : m.state = stateMain)
    (h2 : m.currentRequest.url ≠ "") :
    dispatchesSend (update m (Msg.key Key.enter)).2 = true ∧
    (update m (Msg.key Key.enter)).1.loading = true ∧
    (update m (Msg.key Key.enter)).1.currentRequest = m.currentRequest := by
  simp [update, updateKey, isNavKey, h1, h2, dispatchesSend, Key.string,
    stateMain, stateEditRequest]

/-- Witness for `c1_send_trigger_amended` at the busy model reached by
`busySendEvents`. -/
theorem c1_send_trigger_amended_witness :
    dispatchesSend (update (runEvents initialModel busySendEvents) (Msg.key Key.enter)).2 = true ∧
    (update (runEvents initialModel busySendEvents) (Msg.key Key.enter)).1.loading = true ∧
    (update (runEvents initialModel busySendEvents) (Msg.key Key.enter)).1.currentRequest =
      (runEvents initialModel busySendEvents).currentRequest := by
  exact c1_send_trigger_amended (runEvents initialModel busySendEvents) (by decide) (by decide)

/-- Claim C2 (confirmed): in the edit state, from any single-focus
configuration, four navigation triggers return focus to the identical
starting field, and after each intermediate step exactly one logical
field holds focus. -/
theorem c2_full_circle (m : Model) (h1 : m.state = stateEditRequest)
    (h2 : (focusedFields m).length = 1) :
    focusOf (navStep (navStep (navStep (navStep m)))) = focusOf m ∧
    (focusedFields (navStep m)).length = 1 ∧
    (focusedFields (navStep (navStep m))).length = 1 ∧
    (focusedFields (navStep (navStep (navStep m)))).length = 1 ∧
    (focusedFields (navStep (navStep (navStep (navStep m))))).length = 1 := by
  cases hu : m.urlInput.focused <;> cases hh : m.headerInput.focused <;>
    cases hb : m.bodyInput.focused <;>
    simp [focusedFields, holdsFocus, hu, hh, hb] at h2 <;>
    simp [navStep, update, isNavKey, h1, hu, hh, hb, focusOf, focusedFields, holdsFocus]

/-- Witness for `c2_full_circle` at the freshly entered edit model. -/
theorem c2_full_circle_witness :
    focusOf (navStep (navStep (navStep (navStep editModel)))) = focusOf editModel ∧
    (focusedFields (navStep editModel)).length = 1 ∧
    (focusedFields (navStep (navStep editModel))).length = 1 ∧
    (focusedFields (navStep (navStep (navStep editModel)))).length = 1 ∧
    (focusedFields (navStep (navStep (navStep (navStep editModel))))).length = 1 := by
  exact c2_full_circle editModel (by decide) (by decide)

/-- Claim C3, counterexample: the event sequence edit, tab, tab,
escape, edit reaches the edit state with BOTH the URL and the Headers
fields focused (two logical fields hold focus at once): escape does not
blur the focused field (`main.go:241-243`) and re-entering edit focuses
the URL without blurring others (`main.go:222-225`). -/
theorem c3_double_focus_counterexample :
    (runEvents initialModel navReenterEvents).state = stateEditRequest ∧
    (runEvents initialModel navReenterEvents).urlInput.focused = true ∧
    (runEvents initialModel navReenterEvents).headerInput.focused = true ∧
    (focusedFields (runEvents initialModel navReenterEvents)).length = 2 := by
  refine ⟨by decide, by decide, by decide, by decide⟩

/-- Claim C3, amended: every event whose processing keeps the machine
in the edit state preserves the exactly-one-logical-field-focused
invariant; the invariant can only be broken by leaving Editing with a
non-URL field focused and re-entering it via the edit trigger, which
focuses URL without blurring the previously focused field. -/
theorem c3_focus_invariant_amended (m : Model) (msg : Msg)
    (h1 : m.state = stateEditRequest)
    (h2 : (focusedFields m).length = 1)
    (h3 : (update m msg).1.state = stateEditRequest) :
    (focusedFields (update m msg).1).length = 1 := by
  cases msg with
  | key k =>
    by_cases hnav : isNavKey k = true
    · clear h3
      cases hu : m.urlInput.focused <;> cases hh : m.headerInput.focused <;>
        cases hb : m.bodyInput.focused <;>
        simp [focusedFields, holdsFocus, hu, hh, hb] at h2 <;>
        simp [update, hnav, h1, hu, hh, hb, focusedFields, holdsFocus]
    · rw [Bool.not_eq_true] at hnav
      have hupd : update m (Msg.key k) = updateKey m k := by
        simp [update, hnav]
      rw [hupd] at h3 ⊢
      rcases updateKey_edit_cases m k h1 with hcase | hcase | ⟨hcase, hguard⟩
      · rw [hcase, focusedFields_componentUpdate]
        exact h2
      · exact absurd h3 hcase
      · rw [hcase]
        simp only [Bool.and_eq_true, Bool.not_eq_true'] at hguard
        obtain ⟨⟨hu, hh⟩, hb⟩ := hguard
        simp [focusedFields, holdsFocus, hu, hh, hb]
  | windowSize w h =>
    simp only [update]
    rw [focusedFields_componentUpdate,
        focusedFields_eq_of m { m with width := w, height := h } rfl rfl rfl]
    exact h2
  | response r =>
    simp only [update] at h3
    exact absurd h3 (by decide)
  | saved reqs =>
    simp only [update]
    rw [focusedFields_eq_of m
      { m with savedRequests := reqs, requestList.count := reqs.length } rfl rfl rfl]
    exact h2
  | err e =>
    simp only [update]
    rw [focusedFields_eq_of m { m with loading := false, err := some e } rfl rfl rfl]
    exact h2
  | spinnerTick =>
    by_cases hl : m.loading
    · simp [update, hl]
      exact h2
    · simp only [update]
      rw [if_neg (by simp [hl])]
      rw [focusedFields_componentUpdate]
      exact h2

/-- Witness for `c3_focus_invariant_amended`: typing `x` in the edit
state keeps exactly one field focused. -/
theorem c3_focus_invariant_amended_witness :
    (focusedFields (update editModel (Msg.key (Key.chr 'x' false))).1).length = 1 := by
  exact c3_focus_invariant_amended editModel (Msg.key (Key.chr 'x' false))
    (by decide) (by decide) (by decide)

/-- Claim C4 (confirmed): delivering a navigation key (tab or ctrl+n)
in the edit state never changes the value of the URL, Headers, or Body
text field — the key is intercepted before any field input handler runs
(`main.go:192-215`, `main.go:389-395`). -/
theorem c4_nav_key_never_typed (m : Model) (k : Key) (h1 : m.state = stateEditRequest)
    (hk : k = Key.tab ∨ k = Key.ctrlN) :
    (update m (Msg.key k)).1.urlInput.value = m.urlInput.value ∧
    (update m (Msg.key k)).1.headerInput.value = m.headerInput.value ∧
    (update m (Msg.key k)).1.bodyInput.value = m.bodyInput.value := by
  rcases hk with rfl | rfl <;>
    cases hu : m.urlInput.focused <;> cases hh : m.headerInput.focused <;>
      cases hb : m.bodyInput.focused <;>
      simp [update, isNavKey, h1, hu, hh, hb]

/-- Witness for `c4_nav_key_never_typed` at the freshly entered edit
model with the tab key. -/
theorem c4_nav_key_never_typed_witness :
    (update editModel (Msg.key Key.tab)).1.urlInput.value = editModel.urlInput.value ∧
    (update editModel (Msg.key Key.tab)).1.headerInput.value = editModel.headerInput.value ∧
    (update editModel (Msg.key Key.tab)).1.bodyInput.value = editModel.bodyInput.value := by
  exact c4_nav_key_never_typed editModel Key.tab (by decide) (Or.inl rfl)

/-- Claim C5, counterexample: a request whose method string `FOO` is
not in the enumerated list is loaded from the saved list, edit mode is
entered and navigation advances to the Method position; one more
navigation trigger overwrites the draft method with the list's
highlighted entry `GET` (`main.go:199-203` with `indexOf` returning 0
for an unknown method, `main.go:673-680`), so navigation is not free of
draft mutation. -/
theorem c5_method_overwrite_counterexample :
    (runEvents initialModel unknownMethodEvents).state = stateEditRequest ∧
    (runEvents initialModel unknownMethodEvents).currentRequest.method = "FOO" ∧
    (navStep (runEvents initialModel unknownMethodEvents)).currentRequest.method = "GET" ∧
    "FOO" ≠ "GET" := by
  refine ⟨by decide, by decide, by decide, by decide⟩

/-- Claim C5, amended: a navigation trigger in the edit state leaves
url, headers, body and name of the draft unchanged always; it leaves
the method unchanged when a text field is focused, but when the Method
position is current it overwrites the draft method with the
method-list entry under the cursor (equal to the old method only when
the cursor sits on it, e.g. for methods in the enumerated list placed
there by the preceding URL-to-Method step). -/
theorem c5_nav_frame_amended (m : Model) (k : Key) (h1 : m.state = stateEditRequest)
    (hk : k = Key.tab ∨ k = Key.ctrlN) :
    (update m (Msg.key k)).1.currentRequest.url = m.currentRequest.url ∧
    (update m (Msg.key k)).1.currentRequest.headers = m.currentRequest.headers ∧
    (update m (Msg.key k)).1.currentRequest.body = m.currentRequest.body ∧
    (update m (Msg.key k)).1.currentRequest.name = m.currentRequest.name ∧
    ((m.urlInput.focused || m.headerInput.focused || m.bodyInput.focused) = true →
      (update m (Msg.key k)).1.currentRequest.method = m.currentRequest.method) ∧
    ((!m.urlInput.focused && !m.headerInput.focused && !m.bodyInput.focused) = true →
      (update m (Msg.key k)).1.currentRequest.method =
        httpMethods.getD m.methodList.index "GET") := by
  rcases hk with rfl | rfl <;>
    cases hu : m.urlInput.focused <;> cases hh : m.headerInput.focused <;>
      cases hb : m.bodyInput.focused <;>
      simp [update, isNavKey, h1, hu, hh, hb]

/-- Witness for `c5_nav_frame_amended` at the freshly entered edit
model with the tab key. -/
theorem c5_nav_frame_amended_witness :
    (update editModel (Msg.key Key.tab)).1.currentRequest.url = editModel.currentRequest.url ∧
    (update editModel (Msg.key Key.tab)).1.currentRequest.headers =
      editModel.currentRequest.headers ∧
    (update editModel (Msg.key Key.tab)).1.currentRequest.body = editModel.currentRequest.body ∧
    (update editModel (Msg.key Key.tab)).1.currentRequest.name = editModel.currentRequest.name ∧
    ((editModel.urlInput.focused || editModel.headerInput.focused ||
        editModel.bodyInput.focused) = true →
      (update editModel (Msg.key Key.tab)).1.currentRequest.method =
        editModel.currentRequest.method) ∧
    ((!editModel.urlInput.focused && !editModel.headerInput.focused &&
        !editModel.bodyInput.focused) = true →
      (update editModel (Msg.key Key.tab)).1.currentRequest.method =
        httpMethods.getD editModel.methodList.index "GET") := by
  exact c5_nav_frame_amended editModel Key.tab (by decide) (Or.inl rfl)

/-- Claim C6 (confirmed): `parseHeaders` implements exactly the spec's
algorithm — split on line boundaries, trim each line, skip blank
lines, split on the first colon only (no-colon lines discarded), trim
key and value, last duplicate wins — and on the input of a
whitespace-only line, `NoColonHere`, and `A: B  ` it yields the
single-entry mapping from `A` to `B`. -/
theorem c6_parseHeaders_correct :
    (∀ input : String, parseHeaders input = parseHeadersSpec input) ∧
    parseHeaders "  \nNoColonHere\nA: B  " = [("A", "B")] ∧
    parseHeaders "A: 1\nA: 2" = [("A", "2")] := by
  refine ⟨fun input => ?_, by decide, by decide⟩
  unfold parseHeaders parseHeadersSpec
  exact parseHeadersLoop_eq (splitLines input) []

/-- Claim C7, counterexample: a request with a non-empty body that
explicitly supplies a `Content-Type` entry with an empty value still
gets `application/json` — the supplied entry is overridden, because
`Header.Get` cannot distinguish an empty supplied value from an absent
header (`main.go:563-565`). -/
theorem c7_content_type_counterexample :
    emptyCTRequest.body ≠ "" ∧
    emptyCTRequest.headers = [("Content-Type", "")] ∧
    headerGet (buildRequestHeaders emptyCTRequest) "Content-Type" = "application/json" ∧
    "application/json" ≠ "" := by
  refine ⟨by decide, rfl, by decide, by decide⟩

/-- Claim C7, amended: with an empty body the executor adds no
Content-Type default; with a non-empty body it sets
`application/json` when every supplied Content-Type entry (under MIME
key canonicalization) has an empty value — in particular when none is
supplied; a supplied Content-Type whose first value is non-empty is
applied as given and not overridden. -/
theorem c7_content_type_amended (req : HTTPRequest) :
    (req.body = "" → buildRequestHeaders req = headerAddAll [] req.headers) ∧
    (req.body ≠ "" →
      (∀ kv ∈ req.headers, canonicalMIMEHeaderKey kv.1 = "Content-Type" → kv.2 = "") →
      headerGet (buildRequestHeaders req) "Content-Type" = "application/json") ∧
    (∀ kv, (req.headers.filter
        (fun e => canonicalMIMEHeaderKey e.1 == "Content-Type")).head? = some kv →
      kv.2 ≠ "" →
      buildRequestHeaders req = headerAddAll [] req.headers ∧
      headerGet (buildRequestHeaders req) "Content-Type" = kv.2) := by
  have hcanon : canonicalMIMEHeaderKey "Content-Type" = "Content-Type" := by decide
  refine ⟨fun hb => ?_, fun hb hall => ?_, fun kv hhead hne => ?_⟩
  · simp [buildRequestHeaders, hb]
  · have hget0 : headerGet (headerAddAll [] req.headers) "Content-Type" = "" := by
      rw [headerGet_headerAddAll_nil]
      cases hfl : req.headers.filter (fun kv => canonicalMIMEHeaderKey kv.1 == "Content-Type") with
      | nil => simp
      | cons a t =>
        have hmem : a ∈ req.headers.filter
            (fun kv => canonicalMIMEHeaderKey kv.1 == "Content-Type") := by
          rw [hfl]; exact List.mem_cons_self a t
        have hparts := List.mem_filter.mp hmem
        have hcan : canonicalMIMEHeaderKey a.1 = "Content-Type" := by
          simpa using hparts.2
        simpa using hall a hparts.1 hcan
    have hcond : req.body ≠ "" ∧ headerGet (headerAddAll [] req.headers) "Content-Type" = "" :=
      ⟨hb, hget0⟩
    simp only [buildRequestHeaders]
    rw [if_pos hcond]
    simp [headerSet, headerGet, hcanon, rawHeaderValues_rawHeaderSet_self]
  · have hgetv : headerGet (headerAddAll [] req.headers) "Content-Type" = kv.2 := by
      rw [headerGet_headerAddAll_nil]
      cases hfl : req.headers.filter (fun kv => canonicalMIMEHeaderKey kv.1 == "Content-Type") with
      | nil => rw [hfl] at hhead; cases hhead
      | cons a t =>
        rw [hfl] at hhead
        simp only [List.head?_cons, Option.some.injEq] at hhead
        simp [hhead]
    have hcond : ¬(req.body ≠ "" ∧ headerGet (headerAddAll [] req.headers) "Content-Type" = "") := by
      rintro ⟨-, h⟩
      rw [hgetv] at h
      exact hne h
    constructor
    · simp only [buildRequestHeaders]
      rw [if_neg hcond]
    · simp only [buildRequestHeaders]
      rw [if_neg hcond]
      exact hgetv

/-- Witness for `c7_content_type_amended` at a request supplying
`content-type: text/plain` with a non-empty body. -/
theorem c7_content_type_amended_witness :
    (plainCTRequest.headers.filter
        (fun e => canonicalMIMEHeaderKey e.1 == "Content-Type")).head? =
      some ("content-type", "text/plain") ∧
    buildRequestHeaders plainCTRequest = headerAddAll [] plainCTRequest.headers ∧
    headerGet (buildRequestHeaders plainCTRequest) "Content-Type" = "text/plain" := by
  refine ⟨by decide, ?_, ?_⟩
  · exact ((c7_content_type_amended plainCTRequest).2.2 ("content-type", "text/plain")
      (by decide) (by decide)).1
  · exact ((c7_content_type_amended plainCTRequest).2.2 ("content-type", "text/plain")
      (by decide) (by decide)).2

/-- Claim C8 (confirmed): processing a send-failure event while the
machine is in the main (Idle) state — where both send dispatch paths
leave it — keeps it in Idle (not ViewingResponse), clears `loading`,
records the failure description, and leaves the stored response
untouched (`main.go:374-377`). -/
theorem c8_send_failure_idle (m : Model) (e : String) (h1 : m.state = stateMain) :
    (update m (Msg.err e)).1.state = stateMain ∧
    (update m (Msg.err e)).1.state ≠ stateViewResponse ∧
    (update m (Msg.err e)).1.loading = false ∧
    (update m (Msg.err e)).1.err = some e ∧
    (update m (Msg.err e)).1.response = m.response := by
  simp [update, h1, stateMain, stateViewResponse]

/-- Witness for `c8_send_failure_idle` at the initial model with a
transport-error description. -/
theorem c8_send_failure_idle_witness :
    (update initialModel (Msg.err "dial tcp: connection refused")).1.state = stateMain ∧
    (update initialModel (Msg.err "dial tcp: connection refused")).1.state ≠ stateViewResponse ∧
    (update initialModel (Msg.err "dial tcp: connection refused")).1.loading = false ∧
    (update initialModel (Msg.err "dial tcp: connection refused")).1.err =
      some "dial tcp: connection refused" ∧
    (update initialModel (Msg.err "dial tcp: connection refused")).1.response =
      initialModel.response :=
  c8_send_failure_idle initialModel "dial tcp: connection refused" (by rfl)

/-- Claim C9, counterexample: with `boom` recorded as the last error, a
successful send (`responseMsg`) and a refreshed saved-requests delivery
both leave the recorded error in place — neither clears it
(`main.go:317-321`, `main.go:359-372`), contradicting the claim that a
successful operation clears it. -/
theorem c9_error_clear_counterexample :
    erroredModel.err = some "boom" ∧
    (update erroredModel (Msg.response sampleResponse)).1.state = stateViewResponse ∧
    (update erroredModel (Msg.response sampleResponse)).1.err = some "boom" ∧
    (update erroredModel (Msg.saved [])).1.err = some "boom" := by
  refine ⟨rfl, by decide, by decide, by decide⟩

/-- Claim C9, amended: the recorded operational failure is overwritten
only by a newer failure; a successful send and a refreshed
saved-requests delivery leave `err` unchanged (the previous failure
description persists). -/
theorem c9_error_persistence_amended (m : Model) (r : HTTPResponse)
    (reqs : List HTTPRequest) (e : String) :
    (update m (Msg.response r)).1.err = m.err ∧
    (update m (Msg.saved reqs)).1.err = m.err ∧
    (update m (Msg.err e)).1.err = some e := by
  simp [update]

/-- Claim C10 (confirmed): loading saved requests returns the empty
list when the directory does not exist; otherwise it returns exactly
the successfully deserialized regular `.json` files, and dropping any
entry that is skipped (directory, wrong extension, read failure, or
parse failure) does not change the result — no error is surfaced and
every remaining well-formed file still appears. -/
theorem c10_load_saved_requests :
    (∀ parse, loadSavedRequests DirState.notExist parse = LoadResult.savedMsg []) ∧
    (∀ parse files, loadSavedRequests (DirState.entries files) parse =
        LoadResult.savedMsg (files.filterMap (loadedEntry parse))) ∧
    (∀ (parse : String → Option HTTPRequest) (xs ys : List DirEntry) (bad : DirEntry),
        loadedEntry parse bad = none →
        loadSavedRequests (DirState.entries (xs ++ bad :: ys)) parse =
          loadSavedRequests (DirState.entries (xs ++ ys)) parse) := by
  refine ⟨fun parse => rfl, fun parse files => loadSavedRequests_entries parse files,
    fun parse xs ys bad hbad => ?_⟩
  rw [loadSavedRequests_entries, loadSavedRequests_entries]
  simp [List.filterMap_append, List.filterMap_cons, hbad]

/-- Witness for `c10_load_saved_requests`: a directory with one
well-formed and one corrupt file loads the same list as the directory
without the corrupt file. -/
theorem c10_load_saved_requests_witness :
    loadedEntry sampleParse corruptFile = none ∧
    loadSavedRequests (DirState.entries [goodFile, corruptFile]) sampleParse =
      loadSavedRequests (DirState.entries [goodFile]) sampleParse :=
  ⟨by decide, c10_load_saved_requests.2.2 sampleParse [goodFile] [] corruptFile (by decide)⟩
